import Mathlib

/-!
Shallow embedding of the Rubik's cube solver from
`src/backend/kociemba_api/src/solver/cube.cpp` and
`src/backend/kociemba_api/src/solver/solver.cpp` (namespace `kociemba`),
together with theorems settling the frozen claims about it.

Conventions of the embedding:
* Corner indices (enum `Cube::Corner`):
  URF=0, UFL=1, ULB=2, UBR=3, DFR=4, DLF=5, DBL=6, DRB=7.
* Edge indices (enum `Cube::Edge`):
  UR=0, UF=1, UL=2, UB=3, DR=4, DF=5, DL=6, DB=7, FR=8, FL=9, BL=10, BR=11.
* Moves (enum `Move`): `face * 3 + amount`, faces U,R,F,D,L,B = 0..5,
  amounts 0 = clockwise quarter, 1 = half, 2 = counterclockwise quarter.
* C++ `std::array<int, n>` fields become `List Nat` of length n; reads
  `a[i]` become `List.getD a i 0`.
* C++ `int` arithmetic on these small nonnegative quantities becomes `Nat`
  arithmetic; the pruning tables, which store `-1` sentinels, use `Int`.
-/

namespace RubixSolver

/-- Hard-coded quarter-turn corner permutation rows, from `Cube::initCornerMove`
(`cube.cpp`).  Row for face f lists, per corner slot, the corner whose old
content arrives there, e.g. U1 = {UBR, URF, UFL, ULB, DFR, DLF, DBL, DRB}. -/
def cornerMoveQ (face : Nat) : List Nat :=
  match face with
  | 0 => [3, 0, 1, 2, 4, 5, 6, 7]      -- U1: UBR, URF, UFL, ULB, DFR, DLF, DBL, DRB
  | 1 => [4, 1, 2, 0, 7, 5, 6, 3]      -- R1: DFR, UFL, ULB, URF, DRB, DLF, DBL, UBR
  | 2 => [1, 5, 2, 3, 0, 4, 6, 7]      -- F1: UFL, DLF, ULB, UBR, URF, DFR, DBL, DRB
  | 3 => [0, 1, 2, 3, 5, 6, 7, 4]      -- D1: URF, UFL, ULB, UBR, DLF, DBL, DRB, DFR
  | 4 => [0, 6, 2, 3, 4, 1, 5, 7]      -- L1: URF, DBL, ULB, UBR, DFR, UFL, DLF, DRB
  | _ => [0, 1, 7, 3, 4, 5, 2, 6]      -- B1: URF, UFL, DRB, UBR, DFR, DLF, ULB, DBL

/-- Hard-coded quarter-turn corner orientation rows, from `Cube::initCornerOrient`. -/
def cornerOrientQ (face : Nat) : List Nat :=
  match face with
  | 0 => [0, 0, 0, 0, 0, 0, 0, 0]
  | 1 => [2, 0, 0, 1, 1, 0, 0, 2]
  | 2 => [1, 2, 0, 0, 2, 1, 0, 0]
  | 3 => [0, 0, 0, 0, 0, 0, 0, 0]
  | 4 => [0, 1, 0, 0, 0, 2, 2, 0]
  | _ => [0, 0, 1, 2, 0, 0, 2, 1]

/-- Hard-coded quarter-turn edge permutation rows, from `Cube::initEdgeMove`. -/
def edgeMoveQ (face : Nat) : List Nat :=
  match face with
  | 0 => [3, 0, 1, 2, 4, 5, 6, 7, 8, 9, 10, 11]   -- U1: UB,UR,UF,UL,DR,DF,DL,DB,FR,FL,BL,BR
  | 1 => [8, 1, 2, 3, 11, 5, 6, 7, 4, 9, 10, 0]   -- R1: FR,UF,UL,UB,BR,DF,DL,DB,DR,FL,BL,UR
  | 2 => [1, 9, 2, 3, 4, 8, 6, 7, 5, 1, 10, 11]   -- F1: UF,FL,UL,UB,DR,FR,DL,DB,DF,UF,BL,BR
  | 3 => [0, 1, 2, 3, 5, 6, 7, 4, 8, 9, 10, 11]   -- D1: UR,UF,UL,UB,DF,DL,DB,DR,FR,FL,BL,BR
  | 4 => [0, 1, 10, 3, 4, 5, 9, 7, 8, 2, 6, 11]   -- L1: UR,UF,BL,UB,DR,DF,FL,DB,FR,UL,DL,BR
  | _ => [0, 1, 2, 11, 4, 5, 6, 10, 8, 9, 3, 7]   -- B1: UR,UF,UL,BR,DR,DF,DL,BL,FR,FL,UB,DB

/-- Hard-coded quarter-turn edge orientation rows, from `Cube::initEdgeOrient`. -/
def edgeOrientQ (face : Nat) : List Nat :=
  match face with
  | 2 => [1, 1, 0, 0, 0, 1, 0, 0, 1, 1, 0, 0]
  | 5 => [0, 0, 0, 1, 0, 0, 0, 1, 0, 0, 1, 1]
  | _ => [0, 0, 0, 0, 0, 0, 0, 0, 0, 0, 0, 0]

/-- Full corner permutation table row for move m (`Cube::initCornerMove`):
half turns are `moves[m2][i] = moves[m1][moves[m1][i]]`, counterclockwise
turns are `moves[m3][i] = moves[m1][moves[m2][i]]`. -/
def cornerMoveRow (m : Nat) : List Nat :=
  let p := cornerMoveQ (m / 3)
  match m % 3 with
  | 0 => p
  | 1 => (List.range 8).map fun i => p.getD (p.getD i 0) 0
  | _ =>
    let p2 := (List.range 8).map fun i => p.getD (p.getD i 0) 0
    (List.range 8).map fun i => p.getD (p2.getD i 0) 0

/-- Full corner orientation table row for move m (`Cube::initCornerOrient`):
`orients[m2][i] = (orients[m1][i] + orients[m1][cornerMove[m1][i]]) % 3` and
`orients[m3][i] = (orients[m1][i] + orients[m1][cornerMove[m1][i]] +
orients[m1][cornerMove[m2][i]]) % 3`. -/
def cornerOrientRow (m : Nat) : List Nat :=
  let p := cornerMoveQ (m / 3)
  let o := cornerOrientQ (m / 3)
  match m % 3 with
  | 0 => o
  | 1 => (List.range 8).map fun i => (o.getD i 0 + o.getD (p.getD i 0) 0) % 3
  | _ =>
    let p2 := (List.range 8).map fun i => p.getD (p.getD i 0) 0
    (List.range 8).map fun i =>
      (o.getD i 0 + o.getD (p.getD i 0) 0 + o.getD (p2.getD i 0) 0) % 3

/-- Full edge permutation table row for move m (`Cube::initEdgeMove`). -/
def edgeMoveRow (m : Nat) : List Nat :=
  let p := edgeMoveQ (m / 3)
  match m % 3 with
  | 0 => p
  | 1 => (List.range 12).map fun i => p.getD (p.getD i 0) 0
  | _ =>
    let p2 := (List.range 12).map fun i => p.getD (p.getD i 0) 0
    (List.range 12).map fun i => p.getD (p2.getD i 0) 0

/-- Full edge orientation table row for move m (`Cube::initEdgeOrient`). -/
def edgeOrientRow (m : Nat) : List Nat :=
  let p := edgeMoveQ (m / 3)
  let o := edgeOrientQ (m / 3)
  match m % 3 with
  | 0 => o
  | 1 => (List.range 12).map fun i => (o.getD i 0 + o.getD (p.getD i 0) 0) % 2
  | _ =>
    let p2 := (List.range 12).map fun i => p.getD (p.getD i 0) 0
    (List.range 12).map fun i =>
      (o.getD i 0 + o.getD (p.getD i 0) 0 + o.getD (p2.getD i 0) 0) % 2

/-- The cubie-level cube state (`class Cube`): corner permutation `cp`,
corner orientations `co`, edge permutation `ep`, edge orientations `eo`. -/
structure Cube where
  cp : List Nat
  co : List Nat
  ep : List Nat
  eo : List Nat
  deriving DecidableEq, Repr

/-- The solved state (default constructor `Cube::Cube()`). -/
def solvedCube : Cube :=
  { cp := List.range 8, co := List.replicate 8 0
    ep := List.range 12, eo := List.replicate 12 0 }

/-- `Cube::applyMove`.  Note that the source assigns
`newCp[i] = cornerMove[move][i]` and `newEp[i] = edgeMove[move][i]`
(overwriting the permutation with the move's own row), while orientations
are composed: `newCo[i] = (co[cornerMove[move][i]] + cornerOrient[move][i]) % 3`
and `newEo[i] = (eo[edgeMove[move][i]] + edgeOrient[move][i]) % 2`. -/
def applyMove (c : Cube) (m : Nat) : Cube :=
  { cp := (List.range 8).map fun i => (cornerMoveRow m).getD i 0
    co := (List.range 8).map fun i =>
      (c.co.getD ((cornerMoveRow m).getD i 0) 0 + (cornerOrientRow m).getD i 0) % 3
    ep := (List.range 12).map fun i => (edgeMoveRow m).getD i 0
    eo := (List.range 12).map fun i =>
      (c.eo.getD ((edgeMoveRow m).getD i 0) 0 + (edgeOrientRow m).getD i 0) % 2 }

/-- `Cube::isSolved`. -/
def isSolved (c : Cube) : Bool :=
  ((List.range 8).all fun i => c.cp.getD i 0 == i && c.co.getD i 0 == 0) &&
  ((List.range 12).all fun i => c.ep.getD i 0 == i && c.eo.getD i 0 == 0)

/-- `factorial` helper (table lookup in `cube.cpp`). -/
def factorial (n : Nat) : Nat :=
  [1, 1, 2, 6, 24, 120, 720, 5040, 40320, 362880, 3628800, 39916800].getD n 0

/-- Binomial helper `Cnk` from `cube.cpp`: returns 0 when `n < k`, otherwise
replaces `k` by `n - k` when `k > n / 2` and accumulates `s = s*(n-i)/(i+1)`.
(The C++ version also returns 0 for negative `k`; with `Nat` arguments that
case is handled at call sites.) -/
def Cnk (n k : Nat) : Nat :=
  if n < k then 0
  else
    let k := if k > n / 2 then n - k else k
    (List.range k).foldl (fun s i => s * (n - i) / (i + 1)) 1

/-- `Cube::computeTwist`: mixed-radix-3 value of the first 7 corner orientations. -/
def getTwist (c : Cube) : Nat :=
  (List.range 7).foldl (fun t i => t * 3 + c.co.getD i 0) 0

/-- `Cube::computeFlip`: binary value of the first 11 edge orientations. -/
def getFlip (c : Cube) : Nat :=
  (List.range 11).foldl (fun f i => f * 2 + c.eo.getD i 0) 0

/-- `Cube::computeSlice`: for each position i holding an edge value ≥ 8
(a UD-slice edge), add `Cnk(11 - i, x + 1)` where x counts such positions
seen so far. -/
def getSlice (c : Cube) : Nat :=
  ((List.range 12).foldl
    (fun sx i =>
      if 8 ≤ c.ep.getD i 0 then (sx.1 + Cnk (11 - i) (sx.2 + 1), sx.2 + 1) else sx)
    ((0 : Nat), (0 : Nat))).1

/-- `Cube::computeParity`: inversion count of the corner permutation mod 2. -/
def getParity (c : Cube) : Nat :=
  ((List.range 8).foldl
    (fun p i =>
      p + ((List.range 8).filter fun j => i < j && c.cp.getD j 0 < c.cp.getD i 0).length)
    0) % 2

/-- `Cube::computeURFtoDLF`: factorial-base index of the corner permutation
(`v` counts the later entries greater than `cp[i]`, weighted by `factorial r`
with `r` descending from 7). -/
def getURFtoDLF (c : Cube) : Nat :=
  (List.range 8).foldl
    (fun idx i =>
      idx + ((List.range 8).filter fun j => i < j && c.cp.getD i 0 < c.cp.getD j 0).length
        * factorial (7 - i))
    0

/-- `Cube::computeURtoBR`: factorial-base index of the edge permutation,
weighted by `factorial r` with `r` descending from 11. -/
def getURtoBR (c : Cube) : Nat :=
  (List.range 12).foldl
    (fun idx i =>
      idx + ((List.range 12).filter fun j => i < j && c.ep.getD i 0 < c.ep.getD j 0).length
        * factorial (11 - i))
    0

example : getTwist solvedCube = 0 := by decide
example : getFlip solvedCube = 0 := by decide
example : getSlice solvedCube = 4 := by decide
example : getParity solvedCube = 0 := by decide

/-! ## Facelet codec (`Cube::isValidState`, `Cube::initFromString`,
`Cube::toString`, `Cube::moveToString`) -/

/-- The six face letters, in face-index order (the C++ string literal "URFDLB"). -/
def faceLetters : List Char := ['U', 'R', 'F', 'D', 'L', 'B']

/-- `Cube::isValidState`: length 54, only the six face letters, and every
letter that occurs occurs exactly 9 times.  (Since the total is 54, the
per-occurring-letter check of the source is the same as requiring each of the
six letters to occur 9 times.) -/
def isValidState (s : List Char) : Bool :=
  s.length == 54 &&
  (s.all fun c => faceLetters.contains c) &&
  (faceLetters.all fun c => s.count c == 9)

/-- The `colorToFace` mapping set up inside `Cube::initFromString`
(U=0, R=1, F=2, D=3, L=4, B=5; other characters never occur on the
guarded path — the source array is uninitialized there, we default to 0). -/
def colorToFace (c : Char) : Nat :=
  if c = 'U' then 0
  else if c = 'R' then 1
  else if c = 'F' then 2
  else if c = 'D' then 3
  else if c = 'L' then 4
  else if c = 'B' then 5
  else 0

/-- Corner facelet positions (same table in `initFromString` and `toString`). -/
def cornerFacelet : List (List Nat) :=
  [[8, 9, 20], [6, 18, 38], [0, 36, 47], [2, 45, 11],
   [29, 26, 15], [27, 44, 24], [33, 53, 42], [35, 17, 51]]

/-- Corner color triples (`cornerColor` in `initFromString`). -/
def cornerColor : List (List Nat) :=
  [[0, 1, 2], [0, 2, 4], [0, 4, 5], [0, 5, 1],
   [3, 2, 1], [3, 4, 2], [3, 5, 4], [3, 1, 5]]

/-- Edge facelet positions (same table in `initFromString` and `toString`). -/
def edgeFacelet : List (List Nat) :=
  [[5, 10], [7, 19], [3, 37], [1, 46], [32, 16], [28, 25],
   [30, 43], [34, 52], [23, 12], [21, 41], [39, 50], [48, 14]]

/-- Edge color pairs (`edgeColor` in `initFromString`). -/
def edgeColor : List (List Nat) :=
  [[0, 1], [0, 2], [0, 4], [0, 5], [3, 1], [3, 2],
   [3, 4], [3, 5], [2, 1], [2, 4], [5, 4], [5, 1]]

/-- Decode one corner slot, as the loops of `initFromString` do: for each
candidate corner j (in order) take the first orientation `ori` with
`colors[k] == cornerColor[j][(k + ori) % 3]` for k = 0,1,2.  The C++ `break`
leaves only the inner `ori` loop, so a later matching j overwrites an earlier
one: the result is the LAST matching pair.  (An unmatched slot is
uninitialized memory in the source; the model defaults to (0, 0).) -/
def decodeCorner (s : List Char) (i : Nat) : Nat × Nat :=
  let colors := (List.range 3).map fun k =>
    colorToFace (s.getD ((cornerFacelet.getD i []).getD k 0) ' ')
  let hits := (List.range 8).filterMap fun j =>
    ((List.range 3).find? fun ori =>
      (List.range 3).all fun k =>
        colors.getD k 0 == (cornerColor.getD j []).getD ((k + ori) % 3) 0).map
      fun ori => (j, ori)
  hits.getLast?.getD (0, 0)

/-- Decode one edge slot (`initFromString`): find the first j whose color pair
matches forwards (orientation 0) or backwards (orientation 1); the C++ `break`
here does leave the j loop, so the FIRST match wins. -/
def decodeEdge (s : List Char) (i : Nat) : Nat × Nat :=
  let c0 := colorToFace (s.getD ((edgeFacelet.getD i []).getD 0 0) ' ')
  let c1 := colorToFace (s.getD ((edgeFacelet.getD i []).getD 1 0) ' ')
  let found := (List.range 12).findSome? fun j =>
    let t0 := (edgeColor.getD j []).getD 0 0
    let t1 := (edgeColor.getD j []).getD 1 0
    if c0 == t0 && c1 == t1 then some (j, 0)
    else if c0 == t1 && c1 == t0 then some (j, 1)
    else none
  found.getD (0, 0)

/-- `Cube::initFromString`: decode all 8 corner slots and 12 edge slots. -/
def initFromString (s : List Char) : Cube :=
  { cp := (List.range 8).map fun i => (decodeCorner s i).1
    co := (List.range 8).map fun i => (decodeCorner s i).2
    ep := (List.range 12).map fun i => (decodeEdge s i).1
    eo := (List.range 12).map fun i => (decodeEdge s i).2 }

/-- The facelet-string constructor `Cube::Cube(const std::string&)`: throws
`std::invalid_argument("Invalid cube state")` when `isValidState` fails,
otherwise decodes. -/
def cubeFromString (s : List Char) : Except String Cube :=
  if isValidState s then .ok (initFromString s) else .error "Invalid cube state"

/-- `Cube::toString`.  Starting from 54 blanks, write the six centers, then
for each corner slot i and k = 0,1,2 write facelet `cornerFacelet[i][(k+ori)%3]`
with color `"URFDLB"[cp[i]/3]`, `"URFDLB"[(cp[i]+1)%6]` or
`"URFDLB"[(cp[i]+2)%6]` according to `(k + ori) % 3`, and similarly for the
edges with `"URFDLB"[ep[i]/3]` and `"URFDLB"[(ep[i]+1)%6]`. -/
def cubeToString (c : Cube) : List Char :=
  let init := List.replicate 54 ' '
  let withCenters :=
    ((((((init.set 4 'U').set 13 'R').set 22 'F').set 31 'D').set 40 'L').set 49 'B')
  let withCorners := (List.range 8).foldl
    (fun acc i =>
      (List.range 3).foldl
        (fun acc k =>
          let ori := c.co.getD i 0
          let pos := (cornerFacelet.getD i []).getD ((k + ori) % 3) 0
          let cpi := c.cp.getD i 0
          let color :=
            match (k + ori) % 3 with
            | 0 => faceLetters.getD (cpi / 3) ' '
            | 1 => faceLetters.getD ((cpi + 1) % 6) ' '
            | _ => faceLetters.getD ((cpi + 2) % 6) ' '
          acc.set pos color)
        acc)
    withCenters
  (List.range 12).foldl
    (fun acc i =>
      (List.range 2).foldl
        (fun acc k =>
          let ori := c.eo.getD i 0
          let pos := (edgeFacelet.getD i []).getD ((k + ori) % 2) 0
          let epi := c.ep.getD i 0
          let color :=
            if (k + ori) % 2 == 0 then faceLetters.getD (epi / 3) ' '
            else faceLetters.getD ((epi + 1) % 6) ' '
          acc.set pos color)
        acc)
    withCorners

/-- `Cube::moveToString`: the face letter from "URFDLB" followed by the
character `amounts[move % 3]` where `amounts` is the string " 2'"
(space, '2', apostrophe). -/
def moveToString (m : Nat) : List Char :=
  [faceLetters.getD (m / 3) ' ', [' ', '2', Char.ofNat 39].getD (m % 3) ' ']

/-- The solved facelet string of the spec. -/
def solvedStr : List Char :=
  "UUUUUUUUURRRRRRRRRFFFFFFFFFDDDDDDDDDLLLLLLLLLBBBBBBBBB".toList

example : isValidState solvedStr = true := by decide

/-- Decoding the solved string yields identity permutations and zero
orientations EXCEPT `eo[10] = 1`: the source's `edgeFacelet[BL] = {39, 50}`
lists the L-face sticker first while `edgeColor[BL] = {5, 4}` lists the B
color first, so even the solved string decodes with edge BL flipped. -/
example : initFromString solvedStr =
    { cp := List.range 8, co := List.replicate 8 0
      ep := List.range 12, eo := [0, 0, 0, 0, 0, 0, 0, 0, 0, 0, 1, 0] } := by decide

/-! ## Solver layer (`solver.cpp`)

The C++ `Solver` precomputes move tables `xMove[i][j]` by unranking `i` to a
canonical cube, applying move `j` and re-ranking (`Solver::initMoveTables`).
We embed each table as the function `(i, j) ↦ entry`, which agrees with the
stored table pointwise. -/

/-- Unranking for the twist table: `Cube()` then `co[j] = twist % 3, twist /= 3`
for j = 6 down to 0, i.e. `co[j]` is the base-3 digit of weight `3^(6-j)`. -/
def twistCubeOf (i : Nat) : Cube :=
  { solvedCube with co := (List.range 8).map fun j => if j < 7 then i / 3 ^ (6 - j) % 3 else 0 }

/-- Unranking for the flip table: `eo[j] = flip & 1, flip >>= 1` for j = 10
down to 0, i.e. `eo[j]` is the bit of weight `2^(10-j)`. -/
def flipCubeOf (i : Nat) : Cube :=
  { solvedCube with eo := (List.range 12).map fun j => if j < 11 then i / 2 ^ (10 - j) % 2 else 0 }

/-- Unranking for the slice table (`initMoveTables`): scanning j = 0..11 with
counter k of slice edges placed so far, place edge `j + 8` when
`k < 4 && slice < Cnk(11 - j, 3 - k)`, else place `j - k` and subtract
`Cnk(11 - j, 3 - k)`.  (The C++ `Cnk` returns 0 when its second argument is
negative, i.e. when `k = 4`.) -/
def sliceCubeOf (i : Nat) : Cube :=
  let fin := (List.range 12).foldl
    (fun st j =>
      let (ep, slice, k) := st
      if k < 4 && slice < Cnk (11 - j) (3 - k) then
        (ep ++ [j + 8], slice, k + 1)
      else
        (ep ++ [j - k], slice - (if k < 4 then Cnk (11 - j) (3 - k) else 0), k))
    (([] : List Nat), i, (0 : Nat))
  { solvedCube with ep := fin.1 }

/-- One step of the inner `while (val > 0)` body in `initMoveTables`'
permutation unranking: `cp[j] = cp[j-1]` followed by `cp[k] = cp[k-1]` for
k = j-1 down to 1, i.e. positions 1..j receive the old 0..j-1 while position
0 keeps its value. -/
def shiftDown (l : List Nat) (j : Nat) : List Nat :=
  (List.range l.length).map fun t =>
    if 1 ≤ t && t ≤ j then l.getD (t - 1) 0 else l.getD t 0

/-- Iterate `shiftDown` `val` times (the `while (val > 0)` loop). -/
def shiftTimes (l : List Nat) (j : Nat) : Nat → List Nat
  | 0 => l
  | v + 1 => shiftTimes (shiftDown l j) j v

/-- Factorial-base unranking of the loop `for j = 7 down to 0:
val = perm % (j+1); perm /= (j+1); shift val times`, applied to a length-n
identity-initialized list (n = 8 for corners, 12 for edges; the source uses
j = 7..0 in both cases). -/
def permUnrank (n : Nat) (i : Nat) : List Nat :=
  (((List.range 8).reverse).foldl
    (fun st j =>
      let (l, perm) := st
      (shiftTimes l j (perm % (j + 1)), perm / (j + 1)))
    (List.range n, i)).1

/-- Unranking for the corner-permutation (URFtoDLF) table. -/
def cpCubeOf (i : Nat) : Cube := { solvedCube with cp := permUnrank 8 i }

/-- Unranking for the edge-permutation (URtoBR) table. -/
def epCubeOf (i : Nat) : Cube := { solvedCube with ep := permUnrank 12 i }

/-- Unranking for the parity table: index 1 is `Cube()` with `R1` then `U1`
applied (`initMoveTables`). -/
def parityCubeOf (i : Nat) : Cube :=
  if i = 1 then applyMove (applyMove solvedCube 3) 0 else solvedCube

/-- `twistMove[i][m]` of `initMoveTables`. -/
def twistMoveEntry (i m : Nat) : Nat := getTwist (applyMove (twistCubeOf i) m)

/-- `flipMove[i][m]` of `initMoveTables`. -/
def flipMoveEntry (i m : Nat) : Nat := getFlip (applyMove (flipCubeOf i) m)

/-- `sliceMove[i][m]` of `initMoveTables`. -/
def sliceMoveEntry (i m : Nat) : Nat := getSlice (applyMove (sliceCubeOf i) m)

/-- `URFtoDLFMove[i][m]` of `initMoveTables`. -/
def urfToDlfMoveEntry (i m : Nat) : Nat := getURFtoDLF (applyMove (cpCubeOf i) m)

/-- `URtoBRMove[i][m]` of `initMoveTables`. -/
def urToBrMoveEntry (i m : Nat) : Nat := getURtoBR (applyMove (epCubeOf i) m)

/-- `parityMove[i][m]` of `initMoveTables`. -/
def parityMoveEntry (i m : Nat) : Nat := getParity (applyMove (parityCubeOf i) m)

/-- `Solver::isMovePairAllowed`: moves on the same face are not allowed
consecutively (this is the whole test in the source). -/
def isMovePairAllowed (m1 m2 : Nat) : Bool := m1 / 3 != m2 / 3

/-- `Solver::isPhase2Move`: any U- or D-face move, or a half turn. -/
def isPhase2Move (m : Nat) : Bool :=
  let face := m / 3
  let amount := m % 3
  if face == 0 || face == 3 then true else amount == 1

/-- `Solver::areMovesCancelling`: same face and amounts summing to 3. -/
def areMovesCancelling (m1 m2 : Nat) : Bool :=
  m1 / 3 == m2 / 3 && m1 % 3 + m2 % 3 == 3

/-- `Solver::areMovesCombinable`: same face. -/
def areMovesCombinable (m1 m2 : Nat) : Bool := m1 / 3 == m2 / 3

/-- `Solver::combineMoves`. -/
def combineMoves (m1 m2 : Nat) : Nat :=
  let face := m1 / 3
  let amount := (m1 % 3 + m2 % 3) % 4
  face * 3 + (if amount == 3 then 1 else amount)

/-! ### Pruning tables (`Solver::initPruningTables`)

All six tables start as `-1` everywhere except entry 0 which is 0, then a
scan propagates `depth + 1` to unvisited successors of entries at `depth`
until a scan makes no assignment. -/

/-- Read a pruning-array entry; out-of-range reads return the sentinel `-1`
(the C++ arrays are exactly `size` long and in-range on the guarded paths). -/
def entry (arr : List Int) (x : Nat) : Int := arr.getD x (-1)

/-- Initial pruning array: all entries `-1` except entry 0, which is 0
(`initPruningTables`). -/
def initialPrun (size : Nat) : List Int := (List.replicate size (-1)).set 0 0

/-- The inner move loop of the breadth-first fill in `initPruningTables`,
expanding one visited index `i`: for each move `j` of `moves` that `allowed`
admits, if `next = step i j` is in range and unvisited, assign it
`depth + 1` and count the assignment into `done` (the second state
component). -/
def expandGo (step : Nat → Nat → Nat) (allowed : Nat → Bool) (size : Nat)
    (i : Nat) (depth : Int) : List Nat → List Int × Nat → List Int × Nat
  | [], st => st
  | j :: js, st =>
    expandGo step allowed size i depth js
      (if allowed j then
        if step i j < size ∧ entry st.1 (step i j) = -1 then
          (st.1.set (step i j) (depth + 1), st.2 + 1)
        else st
      else st)

/-- One scan of the breadth-first fill: visit the indices in order and expand
each index currently holding `depth`. -/
def scanGo (step : Nat → Nat → Nat) (allowed : Nat → Bool) (size : Nat)
    (depth : Int) : List Nat → List Int × Nat → List Int × Nat
  | [], st => st
  | i :: is, st =>
    scanGo step allowed size depth is
      (if entry st.1 i = depth then expandGo step allowed size i depth (List.range 18) st
       else st)

/-- A full scan over `i = 0 .. size - 1`, returning the updated array and the
number `done` of assignments made. -/
def bfsScan (step : Nat → Nat → Nat) (allowed : Nat → Bool) (size : Nat)
    (arr : List Int) (depth : Int) : List Int × Nat :=
  scanGo step allowed size depth (List.range size) (arr, 0)

/-- The `do { ... depth++ } while (done > 0)` loop around the scan.  The
source loop terminates because each productive scan assigns at least one new
entry; `size + 1` rounds of fuel are always enough (see `bfsLoop_spec`). -/
def bfsLoop (step : Nat → Nat → Nat) (allowed : Nat → Bool) (size : Nat) :
    Nat → List Int → Int → List Int
  | 0, arr, _ => arr
  | fuel + 1, arr, depth =>
    let (p, done) := bfsScan step allowed size arr depth
    if done = 0 then p else bfsLoop step allowed size fuel p (depth + 1)

/-- All 18 moves are allowed in the phase-1 tables. -/
def allMovesAllowed (_ : Nat) : Bool := true

def twistPrunList : List Int :=
  bfsLoop twistMoveEntry allMovesAllowed 2187 2188 (initialPrun 2187) 0

def flipPrunList : List Int :=
  bfsLoop flipMoveEntry allMovesAllowed 2048 2049 (initialPrun 2048) 0

def slicePrunList : List Int :=
  bfsLoop sliceMoveEntry allMovesAllowed 495 496 (initialPrun 495) 0

def urfToDlfPrunList : List Int :=
  bfsLoop urfToDlfMoveEntry isPhase2Move 40320 40321 (initialPrun 40320) 0

def urToBrPrunList : List Int :=
  bfsLoop urToBrMoveEntry isPhase2Move 40320 40321 (initialPrun 40320) 0

def parityPrunList : List Int :=
  bfsLoop parityMoveEntry isPhase2Move 2 3 (initialPrun 2) 0

def twistPrunAt (i : Nat) : Int := entry twistPrunList i
def flipPrunAt (i : Nat) : Int := entry flipPrunList i
def slicePrunAt (i : Nat) : Int := entry slicePrunList i
def urfToDlfPrunAt (i : Nat) : Int := entry urfToDlfPrunList i
def urToBrPrunAt (i : Nat) : Int := entry urToBrPrunList i
def parityPrunAt (i : Nat) : Int := entry parityPrunList i

/-! ### The two searches (`Solver::searchPhase1`, `Solver::searchPhase2`)

The C++ search returns a `bool` and pushes/pops moves on a shared
`solution` vector; we embed it as an `Option (List Nat)` whose `some` value
is the content of the vector at success.  The move loop
`for moveIdx in 0..17` becomes recursion over `List.range 18`; the depth
argument comes first so the recursion is structural. -/

/-- The body of phase 1's move loop: skip the move when the previous move is
on the same face (`isMovePairAllowed`) or when a successor coordinate is out
of range, otherwise recurse (through `next`, which is the depth-(d-1)
search) with the move appended. -/
def searchP1Go (next : Nat → Nat → Nat → List Nat → Option (List Nat))
    (f t s : Nat) (acc : List Nat) : List Nat → Option (List Nat)
  | [] => none
  | m :: rest =>
    if !acc.isEmpty && !isMovePairAllowed (acc.getLastD 0) m then
      searchP1Go next f t s acc rest
    else if 2048 ≤ flipMoveEntry f m ∨ 2187 ≤ twistMoveEntry t m ∨ 495 ≤ sliceMoveEntry s m then
      searchP1Go next f t s acc rest
    else
      match next (flipMoveEntry f m) (twistMoveEntry t m) (sliceMoveEntry s m) (acc ++ [m]) with
      | some sol => some sol
      | none => searchP1Go next f t s acc rest

/-- `Solver::searchPhase1` at a given depth: at depth 0 succeed exactly when
`flip = twist = slice = 0`; otherwise prune when
`max(flipPrun[flip], twistPrun[twist], slicePrun[slice]) > depth` and
else try the 18 moves in order. -/
def searchPhase1 : Nat → Nat → Nat → Nat → List Nat → Option (List Nat)
  | 0, f, t, s, acc => if f = 0 ∧ t = 0 ∧ s = 0 then some acc else none
  | d + 1, f, t, s, acc =>
    if max (max (flipPrunAt f) (twistPrunAt t)) (slicePrunAt s) > (d + 1 : Int) then none
    else searchP1Go (searchPhase1 d) f t s acc (List.range 18)

/-- The body of phase 2's move loop: additionally skip non-phase-2 moves. -/
def searchP2Go (next : Nat → Nat → Nat → List Nat → Option (List Nat))
    (par a b : Nat) (acc : List Nat) : List Nat → Option (List Nat)
  | [] => none
  | m :: rest =>
    if !isPhase2Move m then
      searchP2Go next par a b acc rest
    else if !acc.isEmpty && !isMovePairAllowed (acc.getLastD 0) m then
      searchP2Go next par a b acc rest
    else if 2 ≤ parityMoveEntry par m ∨ 40320 ≤ urfToDlfMoveEntry a m ∨
        40320 ≤ urToBrMoveEntry b m then
      searchP2Go next par a b acc rest
    else
      match next (parityMoveEntry par m) (urfToDlfMoveEntry a m) (urToBrMoveEntry b m)
          (acc ++ [m]) with
      | some sol => some sol
      | none => searchP2Go next par a b acc rest

/-- `Solver::searchPhase2` at a given depth. -/
def searchPhase2 : Nat → Nat → Nat → Nat → List Nat → Option (List Nat)
  | 0, par, a, b, acc => if par = 0 ∧ a = 0 ∧ b = 0 then some acc else none
  | d + 1, par, a, b, acc =>
    if max (max (parityPrunAt par) (urfToDlfPrunAt a)) (urToBrPrunAt b) > (d + 1 : Int) then
      none
    else searchP2Go (searchPhase2 d) par a b acc (List.range 18)

/-- `Solver::phase1`: compute the three coordinates, reject out-of-range ones,
then iterative deepening for depth = 0..maxDepthPhase1 (= 20). -/
def phase1 (c : Cube) : Except String (List Nat) :=
  if 2048 ≤ getFlip c ∨ 2187 ≤ getTwist c ∨ 495 ≤ getSlice c then
    .error "Invalid phase 1 coordinates"
  else
    match (List.range 21).findSome?
        (fun d => searchPhase1 d (getFlip c) (getTwist c) (getSlice c) []) with
    | some sol => .ok sol
    | none => .error "No phase 1 solution found within depth limit"

/-- `Solver::phase2`: same for (parity, URFtoDLF, URtoBR), depth up to
maxDepthPhase2 (= 18). -/
def phase2 (c : Cube) : Except String (List Nat) :=
  if 2 ≤ getParity c ∨ 40320 ≤ getURFtoDLF c ∨ 40320 ≤ getURtoBR c then
    .error "Invalid phase 2 coordinates"
  else
    match (List.range 19).findSome?
        (fun d => searchPhase2 d (getParity c) (getURFtoDLF c) (getURtoBR c) []) with
    | some sol => .ok sol
    | none => .error "No phase 2 solution found within depth limit"

/-- `Solver::optimizeSolution`, cancel pass: remove the first adjacent
cancelling pair, if any (the C++ scan erases it and breaks; its loop bound
`solution.size() - 1` underflows on an empty vector, which is undefined
behaviour in C++ — the model reads it as the empty iteration space). -/
def removeFirstCancel : List Nat → Option (List Nat)
  | m1 :: m2 :: rest =>
    if areMovesCancelling m1 m2 then some rest
    else (removeFirstCancel (m2 :: rest)).map fun l => m1 :: l
  | _ => none

/-- `Solver::optimizeSolution`, combine pass: merge the first adjacent
same-face pair, if any. -/
def combineFirst : List Nat → Option (List Nat)
  | m1 :: m2 :: rest =>
    if areMovesCombinable m1 m2 then some (combineMoves m1 m2 :: rest)
    else (combineFirst (m2 :: rest)).map fun l => m1 :: l
  | _ => none

/-- The `do { ... } while (changed)` loop of `Solver::optimizeSolution`: one
iteration runs the cancel pass then the combine pass.  Each productive
iteration shortens the list, so `length + 1` iterations suffice as fuel. -/
def optimizeLoop : Nat → List Nat → List Nat
  | 0, sol => sol
  | fuel + 1, sol =>
    let (sol1, ch1) :=
      match removeFirstCancel sol with
      | some l => (l, true)
      | none => (sol, false)
    let (sol2, ch2) :=
      match combineFirst sol1 with
      | some l => (l, true)
      | none => (sol1, false)
    if ch1 || ch2 then optimizeLoop fuel sol2 else sol2

/-- `Solver::optimizeSolution`. -/
def optimizeSolution (sol : List Nat) : List Nat := optimizeLoop (sol.length + 1) sol

/-- `Solver::solve`: construct the cube (propagating the constructor's
`Invalid cube state`), run phase 1 (wrapping its error), apply the phase-1
moves, run phase 2 (wrapping its error), concatenate and optimize.  The
wall-clock timeout check between the phases and the return is outside the
embedding. -/
def solve (s : List Char) : Except String (List Nat) := do
  let cube ← cubeFromString s
  let p1 ← (phase1 cube).mapError (fun e => "Phase 1 failed: " ++ e)
  let c1 := p1.foldl applyMove cube
  let p2 ← (phase2 c1).mapError (fun e => "Phase 2 failed: " ++ e)
  pure (optimizeSolution (p1 ++ p2))

/-! ## Helper lemmas about the phase-1 search

The slice coordinate of any cube produced by `applyMove` is one of 18 fixed
values, because `applyMove` overwrites the edge permutation with the move's
own table row; none of those values is 0, and the slice coordinate of the
solved facelet string's decoding is 4, so the phase-1 target
`flip = twist = slice = 0` is unreachable and `searchPhase1` can never
succeed from such a state. -/

lemma applyMove_ep (c : Cube) (m : Nat) :
    (applyMove c m).ep = (List.range 12).map fun i => (edgeMoveRow m).getD i 0 := rfl

lemma getSlice_of_ep_eq {c c' : Cube} (h : c.ep = c'.ep) : getSlice c = getSlice c' := by
  unfold getSlice
  rw [h]

lemma sliceMoveEntry_const (s m : Nat) :
    sliceMoveEntry s m = getSlice (applyMove solvedCube m) :=
  getSlice_of_ep_eq (by rw [applyMove_ep, applyMove_ep])

lemma sliceAfterMove_ne_zero : ∀ m, m < 18 → getSlice (applyMove solvedCube m) ≠ 0 := by
  decide

lemma searchP1Go_none (next : Nat → Nat → Nat → List Nat → Option (List Nat))
    (hnext : ∀ f' t' s' acc', s' ≠ 0 → next f' t' s' acc' = none) :
    ∀ (ms : List Nat), (∀ m ∈ ms, m < 18) →
      ∀ f t s acc, searchP1Go next f t s acc ms = none := by
  intro ms
  induction ms with
  | nil => intro _ f t s acc; rfl
  | cons m rest ih =>
    intro hms f t s acc
    have hm : m < 18 := hms m (List.mem_cons_self m rest)
    have hrest : ∀ m' ∈ rest, m' < 18 := fun m' hm' => hms m' (List.mem_cons_of_mem m hm')
    have hns : sliceMoveEntry s m ≠ 0 := by
      rw [sliceMoveEntry_const]; exact sliceAfterMove_ne_zero m hm
    show searchP1Go next f t s acc (m :: rest) = none
    rw [searchP1Go]
    split
    · exact ih hrest f t s acc
    · split
      · exact ih hrest f t s acc
      · rw [hnext _ _ _ _ hns]
        exact ih hrest f t s acc

lemma searchPhase1_none : ∀ d f t s acc, s ≠ 0 → searchPhase1 d f t s acc = none := by
  intro d
  induction d with
  | zero =>
    intro f t s acc hs
    show (if f = 0 ∧ t = 0 ∧ s = 0 then some acc else none) = none
    rw [if_neg]; exact fun h => hs h.2.2
  | succ d ih =>
    intro f t s acc hs
    show searchPhase1 (d + 1) f t s acc = none
    rw [searchPhase1]
    split
    · rfl
    · exact searchP1Go_none (searchPhase1 d) (fun f' t' s' acc' hs' => ih f' t' s' acc' hs')
        (List.range 18) (fun m hm => List.mem_range.mp hm) f t s acc

/-- The cube decoded from the solved facelet string (identity permutations,
all orientations 0 except the BL edge, which decodes flipped because the
source's `edgeFacelet` and `edgeColor` tables disagree on the sticker order
of BL). -/
def solvedDecoded : Cube :=
  { cp := List.range 8, co := List.replicate 8 0
    ep := List.range 12, eo := [0, 0, 0, 0, 0, 0, 0, 0, 0, 0, 1, 0] }

lemma initFromString_solved : initFromString solvedStr = solvedDecoded := by decide

lemma cubeFromString_solved : cubeFromString solvedStr = .ok solvedDecoded := by
  show (if isValidState solvedStr then _ else _) = _
  rw [if_pos (by decide), initFromString_solved]

lemma phase1_solved :
    phase1 solvedDecoded = .error "No phase 1 solution found within depth limit" := by
  have hf : getFlip solvedDecoded = 1 := by decide
  have ht : getTwist solvedDecoded = 0 := by decide
  have hs : getSlice solvedDecoded = 4 := by decide
  unfold phase1
  rw [hf, ht, hs]
  rw [if_neg (by decide)]
  rw [List.findSome?_eq_none_iff.mpr]
  intro d _
  exact searchPhase1_none d 1 0 4 [] (by decide)

lemma except_ok_bind {a b c : Type} (x : a) (k : a → Except c b) :
    (Except.ok x >>= k : Except c b) = k x := rfl

lemma except_mapError_error_bind {a b : Type} (f : String → String) (msg : String)
    (k : a → Except String b) :
    ((Except.error msg : Except String a).mapError f >>= k : Except String b) =
      .error (f msg) := rfl

lemma solve_solved :
    solve solvedStr = .error "Phase 1 failed: No phase 1 solution found within depth limit" := by
  unfold solve
  rw [cubeFromString_solved, except_ok_bind, phase1_solved, except_mapError_error_bind]
  rfl

/-! ## Helper lemmas about the phase-2 search -/

lemma searchP2Go_mem (next : Nat → Nat → Nat → List Nat → Option (List Nat))
    (hnext : ∀ par' a' b' acc' sol', next par' a' b' acc' = some sol' →
      ∀ m ∈ sol', m ∈ acc' ∨ isPhase2Move m = true) :
    ∀ (ms : List Nat) par a b acc sol, searchP2Go next par a b acc ms = some sol →
      ∀ m ∈ sol, m ∈ acc ∨ isPhase2Move m = true := by
  intro ms
  induction ms with
  | nil => intro par a b acc sol h; cases h
  | cons m rest ih =>
    intro par a b acc sol h
    rw [searchP2Go] at h
    split at h
    · exact ih par a b acc sol h
    · split at h
      · exact ih par a b acc sol h
      · split at h
        · exact ih par a b acc sol h
        · rename_i hp2 _ _
          split at h
          · rename_i sol' heq
            cases h
            intro m' hm'
            rcases hnext _ _ _ _ _ heq m' hm' with hmem | hph
            · rcases List.mem_append.mp hmem with hacc | hsingle
              · exact Or.inl hacc
              · right
                rw [List.mem_singleton.mp hsingle]
                have : ¬((!isPhase2Move m) = true) := hp2
                simpa using this
            · exact Or.inr hph
          · exact ih par a b acc sol h

lemma searchPhase2_mem :
    ∀ d par a b acc sol, searchPhase2 d par a b acc = some sol →
      ∀ m ∈ sol, m ∈ acc ∨ isPhase2Move m = true := by
  intro d
  induction d with
  | zero =>
    intro par a b acc sol h
    rw [searchPhase2] at h
    split at h
    · cases h
      exact fun m hm => Or.inl hm
    · cases h
  | succ d ih =>
    intro par a b acc sol h
    rw [searchPhase2] at h
    split at h
    · cases h
    · exact searchP2Go_mem (searchPhase2 d) (fun p' a' b' acc' sol' h' => ih p' a' b' acc' sol' h')
        (List.range 18) par a b acc sol h

/-! ## Helper lemmas about consecutive moves in phase-1 solutions -/

/-- No two adjacent moves of the list are on the same face
(each adjacent pair passes `isMovePairAllowed`). -/
def noSameFaceAdj : List Nat → Bool
  | m1 :: m2 :: rest => isMovePairAllowed m1 m2 && noSameFaceAdj (m2 :: rest)
  | _ => true

lemma noSameFaceAdj_append :
    ∀ (acc : List Nat) (m : Nat), noSameFaceAdj acc = true →
      (acc.isEmpty = true ∨ isMovePairAllowed (acc.getLastD 0) m = true) →
      noSameFaceAdj (acc ++ [m]) = true := by
  intro acc
  induction acc with
  | nil => intro m _ _; rfl
  | cons a t ih =>
    intro m hadj hlast
    cases t with
    | nil =>
      have h : isMovePairAllowed a m = true := by
        rcases hlast with h | h
        · cases h
        · simpa using h
      show noSameFaceAdj [a, m] = true
      simp [noSameFaceAdj, h]
    | cons b t2 =>
      have hadj2 : isMovePairAllowed a b = true ∧ noSameFaceAdj (b :: t2) = true := by
        have : (isMovePairAllowed a b && noSameFaceAdj (b :: t2)) = true := hadj
        exact Bool.and_eq_true_iff.mp this
      have hlast2 : (b :: t2).isEmpty = true ∨
          isMovePairAllowed ((b :: t2).getLastD 0) m = true := by
        rcases hlast with h | h
        · cases h
        · right
          have h1 : (a :: b :: t2).getLastD 0 = (b :: t2).getLastD 0 := by
            rw [List.getLastD_eq_getLast?, List.getLastD_eq_getLast?]
            cases hgl : (b :: t2).getLast? with
            | none => exact absurd hgl (by simp)
            | some y => rw [List.getLast?_cons_cons, hgl]
          rw [h1] at h
          exact h
      have hrec := ih m hadj2.2 hlast2
      show noSameFaceAdj (a :: (b :: t2) ++ [m]) = true
      have : noSameFaceAdj (a :: (b :: t2) ++ [m]) =
          (isMovePairAllowed a b && noSameFaceAdj ((b :: t2) ++ [m])) := rfl
      rw [this, hadj2.1, hrec]
      rfl

lemma searchP1Go_adj (next : Nat → Nat → Nat → List Nat → Option (List Nat))
    (hnext : ∀ f t s acc sol, noSameFaceAdj acc = true → next f t s acc = some sol →
      noSameFaceAdj sol = true) :
    ∀ (ms : List Nat) f t s acc sol, noSameFaceAdj acc = true →
      searchP1Go next f t s acc ms = some sol → noSameFaceAdj sol = true := by
  intro ms
  induction ms with
  | nil => intro f t s acc sol _ h; cases h
  | cons m rest ih =>
    intro f t s acc sol hacc h
    rw [searchP1Go] at h
    split at h
    · exact ih f t s acc sol hacc h
    · rename_i hguard
      split at h
      · exact ih f t s acc sol hacc h
      · split at h
        · rename_i sol' heq
          cases h
          refine hnext _ _ _ _ _ ?_ heq
          refine noSameFaceAdj_append acc m hacc ?_
          by_cases hx : acc.isEmpty = true
          · exact Or.inl hx
          · right
            by_cases hy : isMovePairAllowed (acc.getLastD 0) m = true
            · exact hy
            · exact absurd (by
                simp only [Bool.not_eq_true] at hx hy
                rw [hx, hy]; rfl) hguard
        · exact ih f t s acc sol hacc h

lemma searchPhase1_adj :
    ∀ d f t s acc sol, noSameFaceAdj acc = true → searchPhase1 d f t s acc = some sol →
      noSameFaceAdj sol = true := by
  intro d
  induction d with
  | zero =>
    intro f t s acc sol hacc h
    rw [searchPhase1] at h
    split at h
    · cases h; exact hacc
    · cases h
  | succ d ih =>
    intro f t s acc sol hacc h
    rw [searchPhase1] at h
    split at h
    · cases h
    · exact searchP1Go_adj (searchPhase1 d) (fun f' t' s' acc' sol' h1 h2 => ih f' t' s' acc' sol' h1 h2)
        (List.range 18) f t s acc sol hacc h

/-! ## Properties of the pruning-table breadth-first fill

The scan of `initPruningTables` only ever writes `depth + 1` into entries
that currently hold `-1`, so written entries persist for the rest of the
fill.  The lemmas below characterize one scan pointwise: a non-`-1` entry is
preserved; a `-1` entry either stays `-1` or becomes `depth + 1`; it does
become non-`-1` when some index holding `depth` has it as a successor; and
it stays `-1` when no index holding `depth` has it as a successor.  These
suffice to compute individual entries of the finished tables without
simulating the entire fill. -/

/-- `y` is a successor of `x` in the move-table graph restricted to `size`
entries: some allowed move `j < 18` has `step x j = y` with `y < size`. -/
def succB (step : Nat → Nat → Nat) (allowed : Nat → Bool) (size : Nat) (x y : Nat) : Bool :=
  (List.range 18).any fun j => allowed j && decide (step x j < size) && (step x j == y)

lemma entry_set_self (a : List Int) (n : Nat) (v : Int) (h : n < a.length) :
    entry (a.set n v) n = v := by
  simp [entry, List.getElem?_set_self h]

lemma entry_set_ne (a : List Int) (n : Nat) (v : Int) (y : Nat) (h : y ≠ n) :
    entry (a.set n v) y = entry a y := by
  simp [entry, List.getElem?_set_ne (fun hh => h hh.symm)]

lemma entry_initialPrun (size y : Nat) (hs : 0 < size) :
    entry (initialPrun size) y = if y = 0 then 0 else -1 := by
  unfold initialPrun
  by_cases hy : y = 0
  · subst hy
    rw [if_pos rfl]
    exact entry_set_self _ _ _ (by simpa using hs)
  · rw [if_neg hy, entry_set_ne _ _ _ _ hy]
    simp only [entry, List.getD_eq_getElem?_getD, List.getElem?_replicate]
    split <;> rfl

section BfsPointwise

variable (step : Nat → Nat → Nat) (allowed : Nat → Bool) (size : Nat)

/-- Mid-scan relation between the array `arr` at the start of a scan at
depth `dI` and the current array `a`: lengths agree, non-`-1` entries are
preserved, freshly written entries hold `dI + 1`, and every freshly written
entry is a successor of some index that holds `dI` in `arr`. -/
def MidScan (dI : Int) (arr a : List Int) : Prop :=
  a.length = arr.length ∧
  (∀ y, entry arr y ≠ -1 → entry a y = entry arr y) ∧
  (∀ y, entry arr y = -1 → entry a y = -1 ∨ entry a y = dI + 1) ∧
  (∀ y, entry arr y = -1 → entry a y ≠ -1 →
    ∃ i, entry arr i = dI ∧ succB step allowed size i y = true)

lemma midScan_refl (dI : Int) (arr : List Int) : MidScan step allowed size dI arr arr :=
  ⟨rfl, fun _ _ => rfl, fun _ h => Or.inl h, fun _ h1 h2 => absurd h1 h2⟩

lemma expandGo_spec (i : Nat) (dI : Int) (hdI : 0 ≤ dI) (arr : List Int)
    (harr : arr.length = size) (hi : entry arr i = dI) :
    ∀ (js : List Nat) (a : List Int) (done : Nat),
      (∀ j ∈ js, j < 18) →
      MidScan step allowed size dI arr a →
      MidScan step allowed size dI arr (expandGo step allowed size i dI js (a, done)).1 ∧
      (∀ y, entry a y ≠ -1 →
        entry (expandGo step allowed size i dI js (a, done)).1 y ≠ -1) ∧
      (∀ j ∈ js, allowed j = true → step i j < size →
        entry (expandGo step allowed size i dI js (a, done)).1 (step i j) ≠ -1) ∧
      done ≤ (expandGo step allowed size i dI js (a, done)).2 ∧
      ((expandGo step allowed size i dI js (a, done)).2 = done →
        (expandGo step allowed size i dI js (a, done)).1 = a) := by
  intro js
  induction js with
  | nil =>
    intro a done _ hmid
    exact ⟨hmid, fun y h => h, fun j hj => absurd hj (List.not_mem_nil j),
      Nat.le_refl done, fun _ => rfl⟩
  | cons j js ih =>
    intro a done hjs hmid
    have hj18 : j < 18 := hjs j (List.mem_cons_self j js)
    have hjs2 : ∀ j' ∈ js, j' < 18 := fun j' h => hjs j' (List.mem_cons_of_mem j h)
    rw [expandGo]
    dsimp only
    by_cases hal : allowed j = true
    · rw [if_pos hal]
      by_cases hassign : step i j < size ∧ entry a (step i j) = -1
      · rw [if_pos hassign]
        have hlen : step i j < a.length := by rw [hmid.1, harr]; exact hassign.1
        have hset_self : entry (a.set (step i j) (dI + 1)) (step i j) = dI + 1 :=
          entry_set_self a (step i j) (dI + 1) hlen
        have hset_ne : ∀ y, y ≠ step i j →
            entry (a.set (step i j) (dI + 1)) y = entry a y :=
          fun y hy => entry_set_ne a (step i j) (dI + 1) y hy
        have harrm1 : entry arr (step i j) = -1 := by
          by_contra hne
          rw [hmid.2.1 (step i j) hne] at hassign
          exact hne (by rw [hassign.2])
        have hmid2 : MidScan step allowed size dI arr (a.set (step i j) (dI + 1)) := by
          refine ⟨by rw [List.length_set]; exact hmid.1, ?_, ?_, ?_⟩
          · intro y hy
            have hyne : y ≠ step i j := fun h => hy (h ▸ harrm1)
            rw [hset_ne y hyne]
            exact hmid.2.1 y hy
          · intro y hy
            by_cases hyj : y = step i j
            · subst hyj
              exact Or.inr hset_self
            · rw [hset_ne y hyj]
              exact hmid.2.2.1 y hy
          · intro y hy hyne
            by_cases hyj : y = step i j
            · subst hyj
              refine ⟨i, hi, ?_⟩
              unfold succB
              rw [List.any_eq_true]
              refine ⟨j, List.mem_range.mpr hj18, ?_⟩
              rw [hal]
              simp [hassign.1]
            · rw [hset_ne y hyj] at hyne
              exact hmid.2.2.2 y hy hyne
        obtain ⟨rmid, rmono, rpos, rge, rdone⟩ :=
          ih (a.set (step i j) (dI + 1)) (done + 1) hjs2 hmid2
        refine ⟨rmid, ?_, ?_, ?_, ?_⟩
        · intro y hy
          have hyne : y ≠ step i j := fun h => by rw [h] at hy; exact hy hassign.2
          exact rmono y (by rw [hset_ne y hyne]; exact hy)
        · intro j' hj' hal' hlt'
          rcases List.mem_cons.mp hj' with hj'j | hj'js
          · rw [hj'j]
            refine rmono (step i j) ?_
            rw [hset_self]
            intro hcontra
            omega
          · exact rpos j' hj'js hal' hlt'
        · omega
        · intro heq
          exact absurd heq (by omega)
      · rw [if_neg hassign]
        obtain ⟨rmid, rmono, rpos, rge, rdone⟩ := ih a done hjs2 hmid
        refine ⟨rmid, rmono, ?_, rge, rdone⟩
        intro j' hj' hal' hlt'
        rcases List.mem_cons.mp hj' with hj'j | hj'js
        · rw [hj'j] at hlt' ⊢
          apply rmono
          intro hm1
          exact hassign ⟨hlt', hm1⟩
        · exact rpos j' hj'js hal' hlt'
    · rw [if_neg (by simpa using hal)]
      obtain ⟨rmid, rmono, rpos, rge, rdone⟩ := ih a done hjs2 hmid
      refine ⟨rmid, rmono, ?_, rge, rdone⟩
      intro j' hj' hal' hlt'
      rcases List.mem_cons.mp hj' with hj'j | hj'js
      · rw [hj'j] at hal'
        exact absurd hal' hal
      · exact rpos j' hj'js hal' hlt'

lemma scanGo_spec (dI : Int) (hdI : 0 ≤ dI) (arr : List Int) (harr : arr.length = size) :
    ∀ (idxs : List Nat) (a : List Int) (done : Nat),
      MidScan step allowed size dI arr a →
      MidScan step allowed size dI arr (scanGo step allowed size dI idxs (a, done)).1 ∧
      (∀ y, entry a y ≠ -1 →
        entry (scanGo step allowed size dI idxs (a, done)).1 y ≠ -1) ∧
      (∀ i ∈ idxs, entry arr i = dI → ∀ j, j < 18 → allowed j = true → step i j < size →
        entry (scanGo step allowed size dI idxs (a, done)).1 (step i j) ≠ -1) ∧
      done ≤ (scanGo step allowed size dI idxs (a, done)).2 ∧
      ((scanGo step allowed size dI idxs (a, done)).2 = done →
        (scanGo step allowed size dI idxs (a, done)).1 = a) := by
  intro idxs
  induction idxs with
  | nil =>
    intro a done hmid
    exact ⟨hmid, fun y h => h, fun i hi => absurd hi (List.not_mem_nil i),
      Nat.le_refl done, fun _ => rfl⟩
  | cons i idxs ih =>
    intro a done hmid
    rw [scanGo]
    dsimp only
    by_cases hie : entry a i = dI
    · rw [if_pos hie]
      have hiarr : entry arr i = dI := by
        by_cases hne : entry arr i = -1
        · rcases hmid.2.2.1 i hne with h1 | h1
          · rw [hie] at h1; omega
          · rw [hie] at h1; omega
        · rw [← hmid.2.1 i hne, hie]
      obtain ⟨emid, emono, epos, ege, edone⟩ :=
        expandGo_spec step allowed size i dI hdI arr harr hiarr (List.range 18) a done
          (fun j hj => List.mem_range.mp hj) hmid
      rcases hex : expandGo step allowed size i dI (List.range 18) (a, done) with ⟨a2, done2⟩
      rw [hex] at emid emono epos ege edone
      dsimp only at emid emono epos ege edone
      obtain ⟨rmid, rmono, rpos, rge, rdone⟩ := ih a2 done2 emid
      refine ⟨rmid, ?_, ?_, ?_, ?_⟩
      · intro y hy
        exact rmono y (emono y hy)
      · intro i' hi' harri' j hj18 halj hltj
        rcases List.mem_cons.mp hi' with hii | hii
        · rw [hii]
          exact rmono _ (epos j (List.mem_range.mpr hj18) halj (by rw [← hii]; exact hltj))
        · exact rpos i' hii harri' j hj18 halj hltj
      · omega
      · intro heq
        rw [rdone (by omega), edone (by omega)]
    · rw [if_neg hie]
      obtain ⟨rmid, rmono, rpos, rge, rdone⟩ := ih a done hmid
      refine ⟨rmid, rmono, ?_, rge, rdone⟩
      intro i' hi' harri' j hj18 halj hltj
      rcases List.mem_cons.mp hi' with hii | hii
      · exfalso
        rw [hii] at harri'
        apply hie
        rw [hmid.2.1 i (by rw [harri']; omega)]
        exact harri'
      · exact rpos i' hii harri' j hj18 halj hltj

/-- One full scan (`bfsScan`) characterized pointwise. -/
lemma bfsScan_spec (dI : Int) (hdI : 0 ≤ dI) (arr : List Int) (harr : arr.length = size) :
    MidScan step allowed size dI arr (bfsScan step allowed size arr dI).1 ∧
    (∀ i, i < size → entry arr i = dI → ∀ j, j < 18 → allowed j = true → step i j < size →
      entry (bfsScan step allowed size arr dI).1 (step i j) ≠ -1) ∧
    ((bfsScan step allowed size arr dI).2 = 0 → (bfsScan step allowed size arr dI).1 = arr) := by
  obtain ⟨rmid, rmono, rpos, rge, rdone⟩ :=
    scanGo_spec step allowed size dI hdI arr harr (List.range size) arr 0
      (midScan_refl step allowed size dI arr)
  exact ⟨rmid, fun i hi => rpos i (List.mem_range.mpr hi), rdone⟩

/-- Entries once written are preserved by the rest of the fill loop. -/
lemma bfsLoop_preserves :
    ∀ (fuel : Nat) (arr : List Int) (dI : Int), 0 ≤ dI → arr.length = size →
      ∀ y v, v ≠ -1 → entry arr y = v →
        entry (bfsLoop step allowed size fuel arr dI) y = v := by
  intro fuel
  induction fuel with
  | zero => intro arr dI _ _ y v _ hv; exact hv
  | succ fuel ih =>
    intro arr dI hdI harr y v hvne hv
    rw [bfsLoop]
    obtain ⟨rmid, _, rdone⟩ := bfsScan_spec step allowed size dI hdI arr harr
    have hpres : entry (bfsScan step allowed size arr dI).1 y = v := by
      rw [rmid.2.1 y (by rw [hv]; exact hvne), hv]
    have hlen : (bfsScan step allowed size arr dI).1.length = size := by
      rw [rmid.1, harr]
    rcases hsc : bfsScan step allowed size arr dI with ⟨p, done⟩
    try rw [hsc] at hpres
    try rw [hsc] at hlen
    try dsimp only at hpres
    try dsimp only at hlen
    try dsimp only
    by_cases hd : done = 0
    · rw [if_pos hd]
      exact hpres
    · rw [if_neg hd]
      exact ih p (dI + 1) (by omega) hlen y v hvne hpres

end BfsPointwise

/-! ## Concrete pruning-table facts for the twist table

Twist coordinate 3 (corner DRB twisted once — the decoded `co` is all zeros
except `co[6] = 1` in the unranking convention) is reached from coordinate 0
in two moves (L2 = 13 then D1 = 9), no single move reaches it, and one move
(D2 = 10) maps it back to 0.  The fill therefore writes `twistPrun[3] = 2`
although the true distance from 3 to the target is 1. -/

lemma twist_entry_0_13 : twistMoveEntry 0 13 = 1 := by decide

lemma twist_entry_1_9 : twistMoveEntry 1 9 = 3 := by decide

lemma twist_entry_3_10 : twistMoveEntry 3 10 = 0 := by decide

lemma twist_no_single_move_to_three :
    succB twistMoveEntry allMovesAllowed 2187 0 3 = false := by decide

lemma initialPrun_twist_len : (initialPrun 2187).length = 2187 := by
  rw [initialPrun, List.length_set, List.length_replicate]

lemma twistPrunList_at_three : entry twistPrunList 3 = 2 := by
  have hlen0 := initialPrun_twist_len
  obtain ⟨mid0, pos0, done0⟩ :=
    bfsScan_spec twistMoveEntry allMovesAllowed 2187 0 (by omega) (initialPrun 2187) hlen0
  have harr0_0 : entry (initialPrun 2187) 0 = 0 := by
    rw [entry_initialPrun 2187 0 (by omega)]
    rfl
  have harr0_1 : entry (initialPrun 2187) 1 = -1 := by
    rw [entry_initialPrun 2187 1 (by omega)]
    rfl
  have harr0_3 : entry (initialPrun 2187) 3 = -1 := by
    rw [entry_initialPrun 2187 3 (by omega)]
    rfl
  -- round 0 facts
  have e0_1ne : entry (bfsScan twistMoveEntry allMovesAllowed 2187 (initialPrun 2187) 0).1 1 ≠ -1 := by
    have h := pos0 0 (by omega) harr0_0 13 (by omega) rfl (by rw [twist_entry_0_13]; omega)
    rw [twist_entry_0_13] at h
    exact h
  have e0_1 : entry (bfsScan twistMoveEntry allMovesAllowed 2187 (initialPrun 2187) 0).1 1 = 1 := by
    rcases mid0.2.2.1 1 harr0_1 with h | h
    · exact absurd h e0_1ne
    · rw [h]
      omega
  have e0_3 : entry (bfsScan twistMoveEntry allMovesAllowed 2187 (initialPrun 2187) 0).1 3 = -1 := by
    by_contra hne
    obtain ⟨i, hi0, hsucc⟩ := mid0.2.2.2 3 harr0_3 hne
    have hieq : i = 0 := by
      by_contra hi
      rw [entry_initialPrun 2187 i (by omega), if_neg hi] at hi0
      omega
    rw [hieq] at hsucc
    rw [twist_no_single_move_to_three] at hsucc
    cases hsucc
  have hlenp0 : (bfsScan twistMoveEntry allMovesAllowed 2187 (initialPrun 2187) 0).1.length = 2187 := by
    rw [mid0.1, hlen0]
  have hd0 : (bfsScan twistMoveEntry allMovesAllowed 2187 (initialPrun 2187) 0).2 ≠ 0 := by
    intro h
    rw [done0 h] at e0_1
    rw [harr0_1] at e0_1
    cases e0_1
  -- round 1 facts
  obtain ⟨mid1, pos1, _⟩ :=
    bfsScan_spec twistMoveEntry allMovesAllowed 2187 1 (by omega)
      (bfsScan twistMoveEntry allMovesAllowed 2187 (initialPrun 2187) 0).1 hlenp0
  have e1_3 : entry (bfsScan twistMoveEntry allMovesAllowed 2187
      (bfsScan twistMoveEntry allMovesAllowed 2187 (initialPrun 2187) 0).1 1).1 3 = 2 := by
    have hne : entry (bfsScan twistMoveEntry allMovesAllowed 2187
        (bfsScan twistMoveEntry allMovesAllowed 2187 (initialPrun 2187) 0).1 1).1 3 ≠ -1 := by
      have h := pos1 1 (by omega) e0_1 9 (by omega) rfl (by rw [twist_entry_1_9]; omega)
      rw [twist_entry_1_9] at h
      exact h
    rcases mid1.2.2.1 3 e0_3 with h | h
    · exact absurd h hne
    · rw [h]
      omega
  have hlenp1 : (bfsScan twistMoveEntry allMovesAllowed 2187
      (bfsScan twistMoveEntry allMovesAllowed 2187 (initialPrun 2187) 0).1 1).1.length = 2187 := by
    rw [mid1.1, hlenp0]
  -- assemble the loop
  show entry (bfsLoop twistMoveEntry allMovesAllowed 2187 2188 (initialPrun 2187) 0) 3 = 2
  rw [bfsLoop]
  rcases hb0 : bfsScan twistMoveEntry allMovesAllowed 2187 (initialPrun 2187) 0 with ⟨p0, d0⟩
  try rw [hb0] at e0_1 e0_3 hlenp0 hd0 e1_3 hlenp1
  dsimp only at e0_1 e0_3 hlenp0 hd0 e1_3 hlenp1 ⊢
  rw [if_neg hd0]
  rw [zero_add]
  rw [bfsLoop]
  rcases hb1 : bfsScan twistMoveEntry allMovesAllowed 2187 p0 1 with ⟨p1, d1⟩
  try rw [hb1] at e1_3 hlenp1
  dsimp only at e1_3 hlenp1 ⊢
  by_cases hd1 : d1 = 0
  · rw [if_pos hd1]
    exact e1_3
  · rw [if_neg hd1]
    exact bfsLoop_preserves twistMoveEntry allMovesAllowed 2187 2186 p1 (1 + 1) (by omega)
      hlenp1 3 2 (by omega) e1_3

/-! ## Inputs used by the claim theorems -/

/-- The solved string with the three stickers of corner URF cyclically
rotated (facelets 8, 9, 20 hold R, F, U): the decoded cube has corner URF
twisted once, so the corner-twist invariant fails. -/
def twistedStr : List Char :=
  "UUUUUUUURFRRRRRRRRFFUFFFFFFDDDDDDDDDLLLLLLLLLBBBBBBBBB".toList

/-- The move-pair rule as the specification words it, for comparison with
`isMovePairAllowed`: allow `m` after `prev` iff face(m) ≠ face(prev) AND not
(the two faces are an opposite pair with face(m) having the larger index);
faces f and f+3 are opposite (U-D, R-L, F-B). -/
def specMovePairAllowed (prev m : Nat) : Bool :=
  (m / 3 != prev / 3) && !((m / 3 % 3 == prev / 3 % 3) && prev / 3 < m / 3)

/-! ## Claim theorems -/

/-- C1.  Solution correctness fails at the root: `Solver::solve` cannot solve
even the solved facelet string.  The decoded solved cube has slice
coordinate 4 (not 0), and after any move the slice coordinate is one of 18
nonzero values because `applyMove` overwrites the edge permutation, so the
phase-1 target `flip = twist = slice = 0` is unreachable and `solve` throws
"Phase 1 failed: No phase 1 solution found within depth limit" instead of
returning a (correct) move list. -/
theorem solve_cannot_solve_solved :
    solve solvedStr = .error "Phase 1 failed: No phase 1 solution found within depth limit" :=
  solve_solved

/-- C2.  `Cube::applyMove` does not compose permutations: it assigns
`newCp[i] = cornerMove[move][i]`, discarding the current permutation.
Applying U twice to the solved cube leaves the corner permutation equal to
the U row itself, while the claimed composition rule
`new_perm[i] = perm[basis[move][i]]` would give the U2 row, which differs. -/
theorem applyMove_discards_permutation :
    (applyMove (applyMove solvedCube 0) 0).cp = cornerMoveRow 0 ∧
    (List.range 8).map
        (fun i => (applyMove solvedCube 0).cp.getD ((cornerMoveRow 0).getD i 0) 0) =
      cornerMoveRow 1 ∧
    cornerMoveRow 0 ≠ cornerMoveRow 1 := by
  refine ⟨by decide, by decide, by decide⟩

/-- C3.  The solved facelet string does not decode to phase-1 coordinates
(0, 0, 0): its twist is 0 but its flip is 1 (the BL edge decodes flipped)
and its slice is 4 (the source's `computeSlice` gives 4, not 0, to the four
slice edges in their home positions), so the depth-0 phase-1 check fails and
`solve` does not return the empty move list. -/
theorem solved_phase1_coordinates :
    getTwist (initFromString solvedStr) = 0 ∧
    getFlip (initFromString solvedStr) = 1 ∧
    getSlice (initFromString solvedStr) = 4 ∧
    searchPhase1 0 1 0 4 [] = none ∧
    solve solvedStr ≠ .ok [] := by
  refine ⟨by decide, by decide, by decide, by decide, ?_⟩
  rw [solve_solved]
  exact fun h => Except.noConfusion h

/-- C4.  The facelet round-trip fails already on the solved string:
re-encoding its decoding writes facelet 38 (the L sticker of corner UFL) as
'D', because `toString` derives corner sticker colors as
`"URFDLB"[(cp[i]+1)%6]` and `"URFDLB"[(cp[i]+2)%6]` instead of using the
corner color table. -/
theorem toString_roundtrip_fails :
    isValidState solvedStr = true ∧
    (cubeToString (initFromString solvedStr)).getD 38 ' ' = 'D' ∧
    cubeToString (initFromString solvedStr) ≠ solvedStr := by
  refine ⟨by decide, by decide, by decide⟩

/-- C5.  `Cube::isValidState` checks only the length and the color counts,
never the reachability invariants, so the string with corner URF twisted
(decoded corner-twist sum 1 mod 3) is accepted by the facelet-string
constructor instead of being rejected as an invalid cube. -/
theorem invalid_twist_accepted :
    isValidState twistedStr = true ∧
    cubeFromString twistedStr = .ok (initFromString twistedStr) ∧
    (initFromString twistedStr).co.sum % 3 = 1 ∧
    (initFromString twistedStr).eo.sum % 2 = 1 := by
  refine ⟨by decide, ?_, by decide, by decide⟩
  show (if isValidState twistedStr then _ else _) = _
  rw [if_pos (by decide)]

/-- C6.  The pruning tables are not admissible.  Twist coordinate 3 is
reachable from the target coordinate 0 in the twist move-table graph (move
13 = L2 sends 0 to 1, move 9 = D1 sends 1 to 3), and the fill stores
`twistPrun[3] = 2`; but one allowed move (10 = D2) maps 3 straight to 0, so
the true minimal number of moves bringing coordinate 3 to 0 is 1, and the
stored value 2 exceeds it. -/
theorem twistPrun_overestimates_distance :
    twistPrunAt 3 = 2 ∧
    twistMoveEntry 0 13 = 1 ∧ twistMoveEntry 1 9 = 3 ∧
    twistMoveEntry 3 10 = 0 ∧ (3 : Nat) ≠ 0 ∧ ¬((2 : Int) ≤ 1) :=
  ⟨twistPrunList_at_three, twist_entry_0_13, twist_entry_1_9, twist_entry_3_10,
    by omega, by omega⟩

/-- C7.  The phase-2 move filter: `isPhase2Move` holds exactly for the ten
moves {U1, U2, U3, D1, D2, D3, R2, F2, L2, B2} (any U- or D-face move, or a
half turn), and every move that `searchPhase2` appends beyond its incoming
accumulator satisfies it. -/
theorem phase2_move_restriction (d par a b : Nat) (acc sol : List Nat)
    (h : searchPhase2 d par a b acc = some sol) :
    (∀ m : Fin 18, isPhase2Move (m : Nat) = true ↔
      (m : Nat) ∈ [0, 1, 2, 9, 10, 11, 4, 7, 13, 16]) ∧
    ∀ m ∈ sol, m ∈ acc ∨ isPhase2Move m = true :=
  ⟨by decide, searchPhase2_mem d par a b acc sol h⟩

/-- Witness for C7 at the concrete instance d = 0, all coordinates 0. -/
theorem phase2_move_restriction_witness :
    searchPhase2 0 0 0 0 [] = some [] ∧
    ((∀ m : Fin 18, isPhase2Move (m : Nat) = true ↔
        (m : Nat) ∈ [0, 1, 2, 9, 10, 11, 4, 7, 13, 16]) ∧
      ∀ m ∈ ([] : List Nat), m ∈ ([] : List Nat) ∨ isPhase2Move m = true) :=
  ⟨by decide, phase2_move_restriction 0 0 0 0 [] [] (by decide)⟩

/-- C8, counterexample.  `isMovePairAllowed` permits D1 after U1, although
U and D are an opposite pair and face(D1) = 3 has the larger index, so the
claimed opposite-face canonical-ordering suppression is not implemented. -/
theorem movePair_opposite_not_suppressed :
    isMovePairAllowed 0 9 = true ∧ specMovePairAllowed 0 9 = false := by
  refine ⟨by decide, by decide⟩

/-- C8, amended.  `isMovePairAllowed m1 m2` holds exactly when the two moves
are on different faces (consecutive-same-face suppression only), and every
solution produced by `searchPhase1` from an empty accumulator has no two
adjacent same-face moves. -/
theorem movePair_sameface_only :
    (∀ m1 m2 : Fin 18, isMovePairAllowed (m1 : Nat) (m2 : Nat) = true ↔
      (m1 : Nat) / 3 ≠ (m2 : Nat) / 3) ∧
    ∀ d f t s sol, searchPhase1 d f t s [] = some sol → noSameFaceAdj sol = true :=
  ⟨by decide, fun d f t s sol h => searchPhase1_adj d f t s [] sol rfl h⟩

/-- Witness for C8's amended theorem at d = 0, all coordinates 0. -/
theorem movePair_sameface_only_witness :
    searchPhase1 0 0 0 0 [] = some [] ∧ noSameFaceAdj [] = true :=
  ⟨by decide, movePair_sameface_only.2 0 0 0 0 [] (by decide)⟩

/-- C9.  `Cube::moveToString` renders a clockwise quarter turn with a
trailing SPACE (the amounts string is " 2'"), not with an empty amount:
U1 renders as "U " and every rendered token has exactly two characters. -/
theorem moveToString_space_for_quarter :
    moveToString 0 = ['U', ' '] ∧
    (∀ m : Fin 18, (moveToString (m : Nat)).length = 2) := by
  refine ⟨by decide, by decide⟩

/-- C10.  Orientation sums are not preserved: the derived L1 corner
orientation row sums to 5 ≡ 2 (mod 3) and the F1 edge orientation row sums
to 5 ≡ 1 (mod 2), so applying L (move 12) to the solved cube changes the
corner twist sum from 0 to 2 mod 3, and applying F (move 6) changes the edge
flip sum from 0 to 1 mod 2. -/
theorem orientation_sums_not_preserved :
    (applyMove solvedCube 12).co.sum % 3 = 2 ∧
    (cornerOrientRow 12).sum % 3 = 2 ∧
    (applyMove solvedCube 6).eo.sum % 2 = 1 ∧
    (edgeOrientRow 6).sum % 2 = 1 := by
  refine ⟨by decide, by decide, by decide, by decide⟩

end RubixSolver
